import Mathlib

/-!
Verification of the claim-extraction / verification / scoring pipeline of the
custom-resume-extension repository.  The JavaScript sources are shallowly
embedded: JS objects become structures, optional fields become `Option`,
machine numbers in the scoring code become `Int` (all arithmetic there is
exact small-integer arithmetic), JS truthiness on strings is the test for
the empty string, and `Array.prototype.push` loops become `List.foldl` with
append.  Library builtins (`JSON.parse`, the regex engine, the model SDK)
are modelled either concretely (decimal rendering of indices, regex
extraction for the two fixed patterns, a fuel-based JSON parser) or as
parameters (the abstract `jsonParse` / per-variant `outcome` functions).
-/

namespace CRX

/-! ## Decimal rendering of indices

JS template literals render the zero-based indices in `experience_0_1`-style
identifiers in decimal.  `natToDec` is that rendering; it is injective and
its characters are digits, which is what bullet-identifier uniqueness rests
on. -/

/-- One decimal digit character, `0 ≤ d ≤ 9` expected. -/
def decDigit (d : Nat) : Char := Char.ofNat (48 + d)

/-- Fuel-bounded loop producing the decimal digits of `n` (most significant
first) in front of `acc`; structural on the fuel so that concrete values
reduce in the kernel. -/
def decDigitsGo : Nat → Nat → List Char → List Char
  | 0, _, acc => acc
  | fuel + 1, n, acc =>
    if n = 0 then acc else decDigitsGo fuel (n / 10) (decDigit (n % 10) :: acc)

/-- The decimal digits of `n` (empty for 0). -/
def decDigits (n : Nat) : List Char := decDigitsGo n n []

/-- Decimal rendering of a natural number, as a JS template literal renders
an array index. -/
def natToDec (n : Nat) : String :=
  if n = 0 then "0" else ⟨decDigits n⟩

/-- Value of a digit list read back as a decimal numeral. -/
def decVal (cs : List Char) : Nat :=
  cs.foldl (fun a c => 10 * a + (c.toNat - 48)) 0

theorem decDigitsGo_append (fuel n : Nat) (acc : List Char) :
    decDigitsGo fuel n acc = decDigitsGo fuel n [] ++ acc := by
  induction fuel generalizing n acc with
  | zero => simp [decDigitsGo]
  | succ f ih =>
    by_cases h : n = 0
    · simp [decDigitsGo, h]
    · rw [decDigitsGo, decDigitsGo, if_neg h, if_neg h,
        ih (n / 10) (decDigit (n % 10) :: acc), ih (n / 10) [decDigit (n % 10)]]
      simp

theorem decDigitsGo_fuel (f g n : Nat) (hf : n ≤ f) (hg : n ≤ g) :
    decDigitsGo f n [] = decDigitsGo g n [] := by
  induction f generalizing g n with
  | zero =>
    have : n = 0 := Nat.le_zero.mp hf
    subst this
    cases g <;> simp [decDigitsGo]
  | succ f ih =>
    by_cases h : n = 0
    · subst h
      cases g <;> simp [decDigitsGo]
    · obtain ⟨g', rfl⟩ : ∃ g', g = g' + 1 := ⟨g - 1, by omega⟩
      rw [decDigitsGo, decDigitsGo, if_neg h, if_neg h,
        decDigitsGo_append f, decDigitsGo_append g']
      have hdiv : n / 10 < n := Nat.div_lt_self (Nat.pos_of_ne_zero h) (by decide)
      rw [ih g' (n / 10) (by omega) (by omega)]

theorem decDigits_zero : decDigits 0 = [] := rfl

theorem decDigits_pos (n : Nat) (h : n ≠ 0) :
    decDigits n = decDigits (n / 10) ++ [decDigit (n % 10)] := by
  obtain ⟨m, rfl⟩ : ∃ m, n = m + 1 := ⟨n - 1, by omega⟩
  show decDigitsGo (m + 1) (m + 1) [] = _
  rw [decDigitsGo, if_neg h, decDigitsGo_append]
  have hdiv : (m + 1) / 10 < m + 1 := Nat.div_lt_self (by omega) (by decide)
  rw [decDigitsGo_fuel m ((m + 1) / 10) ((m + 1) / 10) (by omega) (le_refl _)]
  rfl

theorem decDigit_toNat {d : Nat} (hd : d < 10) : (decDigit d).toNat = 48 + d := by
  interval_cases d <;> decide

theorem decDigit_isDigit {d : Nat} (hd : d < 10) :
    48 ≤ (decDigit d).toNat ∧ (decDigit d).toNat ≤ 57 := by
  interval_cases d <;> decide

theorem decDigits_digits (n : Nat) :
    ∀ c ∈ decDigits n, 48 ≤ c.toNat ∧ c.toNat ≤ 57 := by
  induction n using Nat.strong_induction_on with
  | _ n ih =>
    by_cases h : n = 0
    · simp [h, decDigits_zero]
    · rw [decDigits_pos n h]
      intro c hc
      rcases List.mem_append.mp hc with h1 | h2
      · exact ih (n / 10) (Nat.div_lt_self (Nat.pos_of_ne_zero h) (by decide)) c h1
      · rcases List.mem_singleton.mp h2 with rfl
        exact decDigit_isDigit (Nat.mod_lt n (by decide))

theorem decVal_decDigits (n : Nat) : decVal (decDigits n) = n := by
  induction n using Nat.strong_induction_on with
  | _ n ih =>
    by_cases h : n = 0
    · simp [h, decDigits_zero, decVal]
    · rw [decDigits_pos n h]
      unfold decVal
      rw [List.foldl_append]
      have := ih (n / 10) (Nat.div_lt_self (Nat.pos_of_ne_zero h) (by decide))
      unfold decVal at this
      rw [this]
      simp only [List.foldl_cons, List.foldl_nil]
      rw [decDigit_toNat (Nat.mod_lt n (by decide))]
      omega

theorem decVal_natToDec (n : Nat) : decVal (natToDec n).data = n := by
  by_cases h : n = 0
  · subst h; decide
  · simp only [natToDec, h, if_false]
    exact decVal_decDigits n

theorem natToDec_injective : Function.Injective natToDec := by
  intro n m h
  have := decVal_natToDec n
  rw [h, decVal_natToDec] at this
  omega

theorem natToDec_no_underscore (n : Nat) : ∀ c ∈ (natToDec n).data, c ≠ '_' := by
  by_cases h : n = 0
  · subst h; decide
  · simp only [natToDec, h, if_false]
    intro c hc
    have := decDigits_digits n c hc
    intro heq
    subst heq
    revert this
    decide

/-! ## Data model

Structures transcribed from `src/server/schemas.js` (the Zod schemas the
generator / verifier outputs are validated against).  `z.string().optional()`
becomes `Option String`. -/

/-- Verdict enum from `bulletVerificationSchema` (`z.enum(['SUPPORTED',
'STRETCH', 'UNSUPPORTED'])`). -/
inductive Status where
  | SUPPORTED
  | STRETCH
  | UNSUPPORTED
deriving DecidableEq, Repr

/-- The string a `Status` value is in JS. -/
def Status.toStr : Status → String
  | .SUPPORTED => "SUPPORTED"
  | .STRETCH => "STRETCH"
  | .UNSUPPORTED => "UNSUPPORTED"

/-- One entry of an experience/project `bullets` array
(`experienceBulletSchema`). -/
structure BulletEntry where
  text : String
  evidenceSnippet : Option String
deriving DecidableEq, Repr

/-- Schema `experienceRoleSchema`. -/
structure ExperienceEntry where
  title : String
  company : String
  startDate : String
  endDate : String
  bullets : List BulletEntry
  location : Option String
deriving DecidableEq, Repr

/-- Schema `projectSchema` (bullets are optional for projects). -/
structure ProjectEntry where
  name : String
  description : Option String
  technologies : Option (List String)
  url : Option String
  bullets : Option (List BulletEntry)
deriving DecidableEq, Repr

/-- Schema `educationSchema`. -/
structure EducationEntry where
  degree : String
  school : String
  graduationDate : Option String
  gpa : Option String
  honors : Option (List String)
deriving DecidableEq, Repr

/-- The `links` object of `basicsSchema`. -/
structure Links where
  linkedIn : Option String
  github : Option String
  portfolio : Option String
  website : Option String
deriving DecidableEq, Repr

/-- Schema `basicsSchema`. -/
structure Basics where
  name : String
  email : String
  phone : Option String
  location : Option String
  links : Option Links
deriving DecidableEq, Repr

/-- Schema `tailoringNotesSchema`. -/
structure TailoringNotes where
  keywordsTargeted : List String
  jobRequirementsMatched : Option (List String)
  jobRequirementsNotMatched : Option (List String)
deriving DecidableEq, Repr

/-- Schema `tailoredResumeSchema`: the generator's structured output. -/
structure TailoredResume where
  basics : Basics
  summary : String
  skills : List String
  experience : List ExperienceEntry
  projects : Option (List ProjectEntry)
  education : Option (List EducationEntry)
  tailoringNotes : TailoringNotes
deriving DecidableEq, Repr

/-- A bullet record as pushed by `extractAllBullets`
(`src/server/services/verifierService.js`).  The JS objects carry
`roleTitle`/`company` only for experience bullets and `projectName` only for
project bullets; absent fields are `none`.  The JS field `section` is named
`sectionTag` because `section` is a Lean keyword. -/
structure ExtractedBullet where
  bulletText : String
  sectionTag : String
  sectionIndex : Nat
  bulletIndex : Nat
  bulletId : String
  roleTitle : Option String := none
  company : Option String := none
  projectName : Option String := none
deriving DecidableEq, Repr

/-- Identifier `{sec}_{i}_{j}` as built by the JS template literals. -/
def mkId (sec : String) (i j : Nat) : String :=
  sec ++ "_" ++ natToDec i ++ "_" ++ natToDec j

/-- Embedding of `extractAllBullets(tailoredResumeJson)` from
`src/server/services/verifierService.js` (lines 104-156).  The JS truthiness
test on `summary` is the non-emptiness test; the nested `forEach`/`push`
loops are the flatMaps over `enum` (whose first component is the JS callback
index). -/
def extractAllBullets (r : TailoredResume) : List ExtractedBullet :=
  (if r.summary ≠ "" then
    [{ bulletText := r.summary, sectionTag := "summary", sectionIndex := 0,
       bulletIndex := 0, bulletId := "summary_0" }]
   else [])
  ++ r.experience.enum.flatMap (fun ie =>
      ie.2.bullets.enum.map (fun jb =>
        { bulletText := jb.2.text, sectionTag := "experience",
          sectionIndex := ie.1, bulletIndex := jb.1,
          bulletId := mkId "experience" ie.1 jb.1,
          roleTitle := some ie.2.title, company := some ie.2.company }))
  ++ (match r.projects with
      | none => []
      | some ps => ps.enum.flatMap (fun ip =>
          match ip.2.bullets with
          | none => []
          | some bs => bs.enum.map (fun jb =>
              { bulletText := jb.2.text, sectionTag := "projects",
                sectionIndex := ip.1, bulletIndex := jb.1,
                bulletId := mkId "projects" ip.1 jb.1,
                projectName := some ip.2.name })))

/-- A verification as validated by `bulletVerificationSchema`: `suggestedFix`
and `bulletId` are optional. -/
structure BulletVerification where
  bulletText : String
  status : Status
  reason : String
  evidence : String
  suggestedFix : Option String
  bulletId : Option String
deriving DecidableEq, Repr

/-- A verification after `verifyBullets` has re-associated it to a bullet:
`bulletId` is definitely a string.  This is the shape `calculateTruthScore`
and `generateFlags` consume. -/
structure ResolvedVerification where
  bulletText : String
  status : Status
  reason : String
  evidence : String
  suggestedFix : Option String
  bulletId : String
deriving DecidableEq, Repr

/-- One entry of `suggestedAdditions` (`generatorOutputSchema`). -/
structure SuggestedAddition where
  requirement : String
  reason : String
  suggestedText : Option String
deriving DecidableEq, Repr

/-- A flag object as built in `generateFlags` and in the
`/api/generate` handler (`src/server/index.js`).  `bulletId`/`bulletText`
are `null` on missing-requirement flags; `type`/`requirement` exist only on
missing-requirement flags.  The JS field `section` is named `sectionTag`. -/
structure Flag where
  bulletId : Option String
  bulletText : Option String
  status : String
  reason : String
  evidence : String
  suggestedFix : Option String
  sectionTag : String
  type : Option String := none
  requirement : Option String := none
deriving DecidableEq, Repr

/-- The JS expression `verification.bulletId.split('_')[0]` from `generateFlags`. -/
def sectionOfId (s : String) : String :=
  (s.splitOn "_").headD ""

/-- The flag pushed by `generateFlags` for an adverse verification. -/
def flagOfVerification (v : ResolvedVerification) : Flag :=
  { bulletId := some v.bulletId, bulletText := some v.bulletText,
    status := v.status.toStr, reason := v.reason, evidence := v.evidence,
    suggestedFix := v.suggestedFix, sectionTag := sectionOfId v.bulletId }

/-- Embedding of `calculateTruthScore(verifications)` from
`src/server/services/verifierService.js` (lines 226-249).  The
`!verifications` null guard of JS cannot fire in the embedding (lists are
never null); the length-zero guard is kept.  JS number arithmetic on these
small exact integers is `Int` arithmetic. -/
def calculateTruthScore (verifications : List ResolvedVerification) : Int :=
  if verifications.length = 0 then 0
  else
    let score : Int := verifications.foldl (fun score v =>
      match v.status with
      | .SUPPORTED => score
      | .STRETCH => score - 8
      | .UNSUPPORTED => score - 20) 100
    max 0 (min 100 score)

/-- Embedding of `generateFlags(verifications)` from
`src/server/services/verifierService.js` (lines 256-274): a `forEach` that
pushes one flag per `STRETCH`/`UNSUPPORTED` verification. -/
def generateFlags (verifications : List ResolvedVerification) : List Flag :=
  verifications.foldl (fun flags v =>
    if v.status = .STRETCH ∨ v.status = .UNSUPPORTED then
      flags ++ [flagOfVerification v]
    else flags) []

/-- The `MISSING_REQUIREMENT` flag built per suggested addition in the
`/api/generate` handler (`src/server/index.js` lines 163-173). -/
def missingFlagOf (s : SuggestedAddition) : Flag :=
  { bulletId := none, bulletText := none, status := "MISSING_REQUIREMENT",
    reason := s.reason, evidence := "none", suggestedFix := s.suggestedText,
    sectionTag := "requirements", type := some "missing_requirement",
    requirement := some s.requirement }

/-- The JS statement `const flags = [...verificationFlags, ...missingRequirementFlags]` with
`(suggestedAdditions || [])` from `src/server/index.js` (lines 159-176). -/
def combinedFlags (verifications : List ResolvedVerification)
    (suggestedAdditions : Option (List SuggestedAddition)) : List Flag :=
  generateFlags verifications ++ (suggestedAdditions.getD []).map missingFlagOf

/-! ## Truth score (C1) -/

/-- Count of verifications with a given status. -/
def countStatus (s : Status) (l : List ResolvedVerification) : Nat :=
  l.countP (fun v => v.status = s)

theorem truthScore_foldl (l : List ResolvedVerification) (x : Int) :
    l.foldl (fun score v =>
      match v.status with
      | .SUPPORTED => score
      | .STRETCH => score - 8
      | .UNSUPPORTED => score - 20) x =
    x - 8 * (countStatus .STRETCH l : Int) - 20 * (countStatus .UNSUPPORTED l : Int) := by
  induction l generalizing x with
  | nil => simp [countStatus]
  | cons v rest ih =>
    simp only [List.foldl_cons, countStatus, List.countP_cons]
    cases hv : v.status <;>
      simp only [hv, countStatus] at ih ⊢ <;>
      rw [ih] <;> simp <;> ring

/-- A concrete verification used to instantiate the worked examples of the
spec. -/
def sampleVerification (s : Status) : ResolvedVerification :=
  { bulletText := "b", status := s, reason := "r", evidence := "e",
    suggestedFix := none, bulletId := "experience_0_0" }

/-- Claim C1: the truth score of a non-empty verification list is
`max 0 (min 100 (100 - 8*#STRETCH - 20*#UNSUPPORTED))`, with the clamp
applied once at the end, and the empty list scores 0; in particular one
SUPPORTED gives 100, one UNSUPPORTED gives 80, two STRETCH plus one
UNSUPPORTED give 64, and fifteen UNSUPPORTED give exactly 0. -/
theorem calculateTruthScore_spec :
    (∀ l : List ResolvedVerification,
      calculateTruthScore l =
        if l = [] then 0
        else max 0 (min 100
          (100 - 8 * (countStatus .STRETCH l : Int) - 20 * (countStatus .UNSUPPORTED l : Int))))
    ∧ calculateTruthScore [sampleVerification .SUPPORTED] = 100
    ∧ calculateTruthScore [sampleVerification .UNSUPPORTED] = 80
    ∧ calculateTruthScore
        [sampleVerification .STRETCH, sampleVerification .STRETCH,
         sampleVerification .UNSUPPORTED] = 64
    ∧ calculateTruthScore (List.replicate 15 (sampleVerification .UNSUPPORTED)) = 0 := by
  refine ⟨fun l => ?_, by decide, by decide, by decide, by decide⟩
  unfold calculateTruthScore
  rcases l with _ | ⟨v, rest⟩
  · simp
  · simp only [List.length_cons, Nat.succ_ne_zero, if_false,
      reduceCtorEq, truthScore_foldl]

/-! ## Flags (C4) -/

theorem generateFlags_foldl (l : List ResolvedVerification) (acc : List Flag) :
    l.foldl (fun flags v =>
      if v.status = .STRETCH ∨ v.status = .UNSUPPORTED then
        flags ++ [flagOfVerification v]
      else flags) acc =
    acc ++ (l.filter (fun v =>
      v.status = Status.STRETCH ∨ v.status = Status.UNSUPPORTED)).map flagOfVerification := by
  induction l generalizing acc with
  | nil => simp
  | cons v rest ih =>
    simp only [List.foldl_cons, List.filter_cons]
    by_cases hv : v.status = Status.STRETCH ∨ v.status = Status.UNSUPPORTED
    · rw [if_pos hv, ih]
      simp [hv]
    · rw [if_neg hv, ih]
      simp [hv]

/-- Claim C4: the combined flag list contains one flag per STRETCH or
UNSUPPORTED verification (none for SUPPORTED), in verification order,
followed by one MISSING_REQUIREMENT flag per suggested addition in their
order. -/
theorem flags_spec :
    (∀ (vs : List ResolvedVerification) (adds : Option (List SuggestedAddition)),
      combinedFlags vs adds =
        (vs.filter (fun v =>
          v.status = Status.STRETCH ∨ v.status = Status.UNSUPPORTED)).map flagOfVerification
        ++ (adds.getD []).map missingFlagOf)
    ∧ (∀ a : SuggestedAddition, (missingFlagOf a).status = "MISSING_REQUIREMENT")
    ∧ (∀ v : ResolvedVerification, (flagOfVerification v).status = v.status.toStr) := by
  refine ⟨fun vs adds => ?_, fun a => rfl, fun v => rfl⟩
  unfold combinedFlags generateFlags
  rw [generateFlags_foldl]
  simp

/-! ## Claim extraction (C3, C9) -/

theorem enum_map_fst_comp {β α : Type} (l : List β) (g : Nat → α) :
    l.enum.map (fun p => g p.1) = (List.range l.length).map g := by
  have h1 : l.enum.map (fun p => g p.1) = (l.enum.map Prod.fst).map g := by
    rw [List.map_map]; rfl
  rw [h1, List.enum_map_fst]

/-- The bullet identifiers produced by `extractAllBullets`, as a pure
function of the positions in the input. -/
theorem extractAllBullets_ids (r : TailoredResume) :
    (extractAllBullets r).map (fun b => b.bulletId) =
      (if r.summary = "" then [] else ["summary_0"])
      ++ r.experience.enum.flatMap (fun ie =>
          (List.range ie.2.bullets.length).map (fun j => mkId "experience" ie.1 j))
      ++ (r.projects.getD []).enum.flatMap (fun ip =>
          (List.range (ip.2.bullets.getD []).length).map (fun j => mkId "projects" ip.1 j)) := by
  unfold extractAllBullets
  rw [List.map_append, List.map_append]
  congr 1
  · congr 1
    · by_cases h : r.summary = "" <;> simp [h]
    · rw [List.map_flatMap]
      congr 1
      funext ie
      rw [List.map_map]
      exact enum_map_fst_comp ie.2.bullets (fun j => mkId "experience" ie.1 j)
  · cases hp : r.projects with
    | none => simp
    | some ps =>
      simp only [Option.getD_some]
      rw [List.map_flatMap]
      congr 1
      funext ip
      cases hb : ip.2.bullets with
      | none => simp
      | some bs =>
        simp only [Option.getD_some, List.map_map]
        exact enum_map_fst_comp bs (fun j => mkId "projects" ip.1 j)

/-- The spec's worked example: summary "S", one experience entry with two
bullets, one project entry with one bullet. -/
def exampleResume : TailoredResume :=
  { basics := { name := "N", email := "n@example.com", phone := none,
                location := none, links := none },
    summary := "S",
    skills := [],
    experience := [{ title := "T", company := "C", startDate := "2020",
                     endDate := "Present",
                     bullets := [{ text := "b1", evidenceSnippet := none },
                                 { text := "b2", evidenceSnippet := none }],
                     location := none }],
    projects := some [{ name := "P", description := none, technologies := none,
                        url := none,
                        bullets := some [{ text := "p1", evidenceSnippet := none }] }],
    education := some [{ degree := "BS", school := "U", graduationDate := none,
                         gpa := none, honors := none }],
    tailoringNotes := { keywordsTargeted := [], jobRequirementsMatched := none,
                        jobRequirementsNotMatched := none } }

/-- Claim C3: extraction is a pure positional function — the identifier
sequence is summary (when present, as `summary_0`) first, then
`experience_{i}_{j}` in given order, then `projects_{i}_{j}` in given order;
education never contributes; the spec's worked example extracts exactly
`summary_0, experience_0_0, experience_0_1, projects_0_0`. -/
theorem extractAllBullets_spec :
    (∀ r : TailoredResume,
      (extractAllBullets r).map (fun b => b.bulletId) =
        (if r.summary = "" then [] else ["summary_0"])
        ++ r.experience.enum.flatMap (fun ie =>
            (List.range ie.2.bullets.length).map (fun j => mkId "experience" ie.1 j))
        ++ (r.projects.getD []).enum.flatMap (fun ip =>
            (List.range (ip.2.bullets.getD []).length).map (fun j => mkId "projects" ip.1 j)))
    ∧ (∀ (r : TailoredResume) (edu : Option (List EducationEntry)),
        extractAllBullets { r with education := edu } = extractAllBullets r)
    ∧ (extractAllBullets exampleResume).map (fun b => b.bulletId) =
        ["summary_0", "experience_0_0", "experience_0_1", "projects_0_0"] := by
  refine ⟨extractAllBullets_ids, fun r edu => ?_, by decide⟩
  cases r
  rfl

theorem append_underscore_inj {a a' b b' : List Char}
    (ha : ∀ c ∈ a, c ≠ '_') (ha' : ∀ c ∈ a', c ≠ '_')
    (h : a ++ '_' :: b = a' ++ '_' :: b') : a = a' ∧ b = b' := by
  induction a generalizing a' with
  | nil =>
    cases a' with
    | nil => simpa using h
    | cons y ys =>
      injection h with h1 h2
      exact absurd h1.symm (ha' y (List.mem_cons_self y ys))
  | cons x xs ih =>
    cases a' with
    | nil =>
      injection h with h1 h2
      exact absurd h1 (ha x (List.mem_cons_self x xs))
    | cons y ys =>
      injection h with h1 h2
      obtain ⟨hxs, hb⟩ := ih (fun c hc => ha c (List.mem_cons_of_mem x hc))
        (fun c hc => ha' c (List.mem_cons_of_mem y hc)) h2
      exact ⟨by rw [h1, hxs], hb⟩

theorem mkId_data (sec : String) (i j : Nat) :
    (mkId sec i j).data = sec.data ++ '_' :: ((natToDec i).data ++ '_' :: (natToDec j).data) := by
  unfold mkId
  simp only [String.data_append]
  simp [List.append_assoc]

theorem mkId_inj (sec : String) {i j i' j' : Nat}
    (h : mkId sec i j = mkId sec i' j') : i = i' ∧ j = j' := by
  have hd := congrArg String.data h
  rw [mkId_data, mkId_data] at hd
  have hd2 := List.append_cancel_left hd
  injection hd2 with h1 h2
  obtain ⟨hi, hj⟩ := append_underscore_inj
    (natToDec_no_underscore i) (natToDec_no_underscore i') h2
  constructor
  · have := decVal_natToDec i
    rw [show natToDec i = natToDec i' from String.ext hi, decVal_natToDec] at this
    omega
  · have := decVal_natToDec j
    rw [show natToDec j = natToDec j' from String.ext hj, decVal_natToDec] at this
    omega

theorem mkId_head_experience (i j : Nat) :
    (mkId "experience" i j).data.head? = some 'e' := by
  rw [mkId_data]; rfl

theorem mkId_head_projects (i j : Nat) :
    (mkId "projects" i j).data.head? = some 'p' := by
  rw [mkId_data]; rfl

theorem mem_summary_opt {c : Prop} [Decidable c] {a : String}
    (ha : a ∈ (if c then ([] : List String) else ["summary_0"])) : a = "summary_0" := by
  by_cases h : c
  · rw [if_pos h] at ha
    exact absurd ha (List.not_mem_nil a)
  · rw [if_neg h] at ha
    simpa using ha

theorem mem_sectionIds (sec : String) {γ : Type} (xs : List (Nat × γ))
    (len : γ → Nat) {a : String}
    (ha : a ∈ xs.flatMap (fun ie => (List.range (len ie.2)).map (fun j => mkId sec ie.1 j))) :
    ∃ i j, a = mkId sec i j := by
  rcases List.mem_flatMap.mp ha with ⟨p, _, hmem⟩
  rcases List.mem_map.mp hmem with ⟨j, _, rfl⟩
  exact ⟨p.1, j, rfl⟩

theorem sectionIds_nodup (sec : String) {γ : Type} (xs : List γ) (len : γ → Nat) :
    (xs.enum.flatMap (fun ie => (List.range (len ie.2)).map (fun j => mkId sec ie.1 j))).Nodup := by
  rw [List.nodup_flatMap]
  constructor
  · intro p _
    refine List.Nodup.map_on ?_ (List.nodup_range _)
    intro x _ y _ hxy
    exact (mkId_inj sec hxy).2
  · have hfst : List.Pairwise (fun p q : Nat × γ => p.1 ≠ q.1) xs.enum :=
      List.pairwise_map.mp (List.nodup_enum_map_fst xs)
    refine hfst.imp ?_
    intro p q hpq a hap haq
    rcases List.mem_map.mp hap with ⟨x, _, rfl⟩
    rcases List.mem_map.mp haq with ⟨y, _, heq⟩
    exact hpq ((mkId_inj sec heq).1).symm

/-- Claim C9: within one extraction the bullet identifiers are pairwise
distinct. -/
theorem extractAllBullets_ids_nodup (r : TailoredResume) :
    ((extractAllBullets r).map (fun b => b.bulletId)).Nodup := by
  rw [extractAllBullets_ids, List.nodup_append, List.nodup_append]
  refine ⟨⟨?_, ?_, ?_⟩, ?_, ?_⟩
  · by_cases h : r.summary = "" <;> simp [h]
  · exact sectionIds_nodup "experience" r.experience (fun e => e.bullets.length)
  · intro a haA haB
    have ha : a = "summary_0" := mem_summary_opt haA
    subst ha
    rcases mem_sectionIds "experience" r.experience.enum
      (fun e => e.bullets.length) haB with ⟨i, j, hij⟩
    have h1 : (mkId "experience" i j).data.head? = ("summary_0" : String).data.head? := by
      rw [hij]
    rw [mkId_head_experience] at h1
    simp at h1
  · exact sectionIds_nodup "projects" (r.projects.getD []) (fun p => (p.bullets.getD []).length)
  · intro a haAB haC
    rcases mem_sectionIds "projects" (r.projects.getD []).enum
      (fun p => (p.bullets.getD []).length) haC with ⟨i, j, hij⟩
    rcases List.mem_append.mp haAB with haA | haB
    · have ha : a = "summary_0" := mem_summary_opt haA
      subst ha
      have h1 : (mkId "projects" i j).data.head? = ("summary_0" : String).data.head? := by
        rw [hij]
      rw [mkId_head_projects] at h1
      simp at h1
    · rcases mem_sectionIds "experience" r.experience.enum
        (fun e => e.bullets.length) haB with ⟨i', j', hij'⟩
      have heq := hij'.symm.trans hij
      have h1 : (mkId "experience" i' j').data.head? = (mkId "projects" i j).data.head? := by
        rw [heq]
      rw [mkId_head_experience, mkId_head_projects] at h1
      simp at h1

/-! ## Bullet re-association (C2)

`verifyBullets` re-attaches each schema-validated verification to a bullet
identifier (`src/server/services/verifierService.js` lines 74-87,
identically `src/unnamed/part_004` lines 120-133). -/

/-- JS `a.includes(b)`: `b` occurs as a contiguous substring of `a`. -/
def strIncludes (a b : String) : Bool :=
  (List.range (a.data.length + 1)).any (fun i => b.data.isPrefixOf (a.data.drop i))

/-- JS `x || y` where `x` is an optional string: `x` wins when truthy
(present and non-empty). -/
def jsOrStr (x : Option String) (y : String) : String :=
  match x with
  | some s => if s ≠ "" then s else y
  | none => y

/-- The disjunction tested by `bullets.find(...)` in `verifyBullets`:
text equality, or substring containment in either direction. -/
def bulletMatches (b : ExtractedBullet) (v : BulletVerification) : Bool :=
  b.bulletText = v.bulletText || strIncludes b.bulletText v.bulletText
    || strIncludes v.bulletText b.bulletText

/-- Embedding of the re-association map of `verifyBullets`: per verification
(at `index`), `matchingBullet` is `bullets.find(...) || bullets[index]`, and
the attached identifier is
`verification.bulletId || matchingBullet?.bulletId || bullet_{index}` with
JS truthiness at each `||`. -/
def assignBulletIds (bullets : List ExtractedBullet) (vs : List BulletVerification) :
    List ResolvedVerification :=
  vs.enum.map (fun iv =>
    let matchingBullet :=
      (bullets.find? (fun b => bulletMatches b iv.2)).orElse (fun _ => bullets.get? iv.1)
    { bulletText := iv.2.bulletText, status := iv.2.status, reason := iv.2.reason,
      evidence := iv.2.evidence, suggestedFix := iv.2.suggestedFix,
      bulletId := jsOrStr iv.2.bulletId
        (jsOrStr (matchingBullet.map (fun b => b.bulletId)) ("bullet_" ++ natToDec iv.1)) })

/-- The matching policy exactly as the claim states it: staged — (1) the
model's identifier when present, (2) else the first bullet with exactly
equal text, (3) else the first bullet related by containment, (4) else the
bullet at the positional index.  Written from the spec's words, for
comparison with `assignBulletIds`. -/
def specAssignBulletIds (bullets : List ExtractedBullet) (vs : List BulletVerification) :
    List ResolvedVerification :=
  vs.enum.map (fun iv =>
    { bulletText := iv.2.bulletText, status := iv.2.status, reason := iv.2.reason,
      evidence := iv.2.evidence, suggestedFix := iv.2.suggestedFix,
      bulletId :=
        match iv.2.bulletId with
        | some s => s
        | none =>
          match bullets.find? (fun b => b.bulletText = iv.2.bulletText) with
          | some b => b.bulletId
          | none =>
            match bullets.find? (fun b =>
                strIncludes b.bulletText iv.2.bulletText
                  || strIncludes iv.2.bulletText b.bulletText) with
            | some b => b.bulletId
            | none =>
              ((bullets.get? iv.1).map (fun b => b.bulletId)).getD
                ("bullet_" ++ natToDec iv.1) })

/-- Two extracted bullets for the C2 counterexample: the first one contains
the verification's text, the second one equals it. -/
def cexBullets : List ExtractedBullet :=
  [{ bulletText := "abc def", sectionTag := "experience", sectionIndex := 0,
     bulletIndex := 0, bulletId := "experience_0_0",
     roleTitle := some "T", company := some "C" },
   { bulletText := "abc", sectionTag := "experience", sectionIndex := 0,
     bulletIndex := 1, bulletId := "experience_0_1",
     roleTitle := some "T", company := some "C" }]

/-- A verification whose text exactly equals the second bullet's text. -/
def cexVerification : BulletVerification :=
  { bulletText := "abc", status := .SUPPORTED, reason := "r", evidence := "e",
    suggestedFix := none, bulletId := none }

/-- Counterexample to claim C2: the code's single `find` with a disjunctive
predicate picks the first bullet matching by containment even when a later
bullet matches by exact equality, so the staged policy of the claim (exact
equality before containment) assigns a different identifier. -/
theorem verifyBullets_matching_counterexample :
    (assignBulletIds cexBullets [cexVerification]).map (fun v => v.bulletId) =
      ["experience_0_0"]
    ∧ (specAssignBulletIds cexBullets [cexVerification]).map (fun v => v.bulletId) =
      ["experience_0_1"]
    ∧ assignBulletIds cexBullets [cexVerification] ≠
      specAssignBulletIds cexBullets [cexVerification] := by
  refine ⟨by decide, by decide, by decide⟩

/-- The resolved identifier under the amended policy: a single scan with the
disjunctive predicate, falling back to the positional bullet, whose
identifier is used when non-empty, else the synthetic `bullet_{index}`. -/
def amendedMatchId (bullets : List ExtractedBullet) (index : Nat)
    (v : BulletVerification) : String :=
  match bullets.find? (fun b => bulletMatches b v) with
  | some b => if b.bulletId = "" then "bullet_" ++ natToDec index else b.bulletId
  | none =>
    match bullets.get? index with
    | some b => if b.bulletId = "" then "bullet_" ++ natToDec index else b.bulletId
    | none => "bullet_" ++ natToDec index

/-- The amended policy: the model's identifier when present and non-empty,
otherwise `amendedMatchId`. -/
def amendedResolveId (bullets : List ExtractedBullet) (index : Nat)
    (v : BulletVerification) : String :=
  match v.bulletId with
  | some s => if s = "" then amendedMatchId bullets index v else s
  | none => amendedMatchId bullets index v

/-- Claim C2 as amended: the identifier attached to each returned
verification is (1) the model's identifier when present and non-empty;
(2) otherwise the identifier of the first extracted bullet — found in one
scan that does not prioritize exact equality over containment — whose text
equals, contains, or is contained in the verification's text; (3) otherwise
the identifier of the extracted bullet at the verification's positional
index; with the synthetic `bullet_{index}` used when no such bullet exists
or the chosen bullet's identifier is empty. -/
theorem assignBulletIds_spec (bullets : List ExtractedBullet)
    (vs : List BulletVerification) :
    assignBulletIds bullets vs = vs.enum.map (fun iv =>
      { bulletText := iv.2.bulletText, status := iv.2.status, reason := iv.2.reason,
        evidence := iv.2.evidence, suggestedFix := iv.2.suggestedFix,
        bulletId := amendedResolveId bullets iv.1 iv.2 }) := by
  unfold assignBulletIds
  apply List.map_congr_left
  intro iv _
  dsimp only
  have hmatch : jsOrStr (((bullets.find? (fun b => bulletMatches b iv.2)).orElse
      (fun _ => bullets.get? iv.1)).map (fun b => b.bulletId))
      ("bullet_" ++ natToDec iv.1) = amendedMatchId bullets iv.1 iv.2 := by
    unfold amendedMatchId
    cases hf : bullets.find? (fun b => bulletMatches b iv.2) with
    | some b =>
      simp only [Option.orElse, Option.map_some]
      by_cases hb : b.bulletId = "" <;> simp [jsOrStr, hb]
    | none =>
      cases hg : bullets.get? iv.1 with
      | some b =>
        simp only [Option.orElse, Option.map_some]
        by_cases hb : b.bulletId = "" <;> simp [jsOrStr, hb]
      | none => simp [jsOrStr, Option.orElse]
  rw [hmatch]
  unfold amendedResolveId
  cases hv : iv.2.bulletId with
  | some s =>
    by_cases hs : s = "" <;> simp [jsOrStr, hs]
  | none => simp [jsOrStr]

/-! ## Duplicated pipeline copy (C10)

`src/unnamed/part_004` contains a second copy of the three pure pipeline
functions; the definitions below transcribe that copy. -/

namespace P4

/-- Function `extractAllBullets` as defined in `src/unnamed/part_004` lines 178-230. -/
def extractAllBullets (r : TailoredResume) : List ExtractedBullet :=
  (if r.summary ≠ "" then
    [{ bulletText := r.summary, sectionTag := "summary", sectionIndex := 0,
       bulletIndex := 0, bulletId := "summary_0" }]
   else [])
  ++ r.experience.enum.flatMap (fun ie =>
      ie.2.bullets.enum.map (fun jb =>
        { bulletText := jb.2.text, sectionTag := "experience",
          sectionIndex := ie.1, bulletIndex := jb.1,
          bulletId := mkId "experience" ie.1 jb.1,
          roleTitle := some ie.2.title, company := some ie.2.company }))
  ++ (match r.projects with
      | none => []
      | some ps => ps.enum.flatMap (fun ip =>
          match ip.2.bullets with
          | none => []
          | some bs => bs.enum.map (fun jb =>
              { bulletText := jb.2.text, sectionTag := "projects",
                sectionIndex := ip.1, bulletIndex := jb.1,
                bulletId := mkId "projects" ip.1 jb.1,
                projectName := some ip.2.name })))

/-- Function `calculateTruthScore` as defined in `src/unnamed/part_004` lines
300-323. -/
def calculateTruthScore (verifications : List ResolvedVerification) : Int :=
  if verifications.length = 0 then 0
  else
    let score : Int := verifications.foldl (fun score v =>
      match v.status with
      | .SUPPORTED => score
      | .STRETCH => score - 8
      | .UNSUPPORTED => score - 20) 100
    max 0 (min 100 score)

/-- The flag pushed per adverse verification in `src/unnamed/part_004`. -/
def flagOfVerification (v : ResolvedVerification) : Flag :=
  { bulletId := some v.bulletId, bulletText := some v.bulletText,
    status := v.status.toStr, reason := v.reason, evidence := v.evidence,
    suggestedFix := v.suggestedFix, sectionTag := sectionOfId v.bulletId }

/-- Function `generateFlags` as defined in `src/unnamed/part_004` lines 330-348. -/
def generateFlags (verifications : List ResolvedVerification) : List Flag :=
  verifications.foldl (fun flags v =>
    if v.status = .STRETCH ∨ v.status = .UNSUPPORTED then
      flags ++ [flagOfVerification v]
    else flags) []

end P4

/-- Claim C10: the two copies of `extractAllBullets`, `calculateTruthScore`
and `generateFlags` (in `src/server/services/verifierService.js` and in
`src/unnamed/part_004`) are extensionally equal. -/
theorem pipeline_copies_equivalent :
    (∀ r : TailoredResume, extractAllBullets r = P4.extractAllBullets r)
    ∧ (∀ vs : List ResolvedVerification,
        calculateTruthScore vs = P4.calculateTruthScore vs)
    ∧ (∀ vs : List ResolvedVerification, generateFlags vs = P4.generateFlags vs) :=
  ⟨fun _ => rfl, fun _ => rfl, fun _ => rfl⟩

/-! ## Model-variant fallback (C6)

Both services iterate a fixed variant list, breaking on the first accepted
response and rethrowing the last variant's error
(`src/server/services/geminiService.js` lines 30-61, `src/unnamed/part_004`
lines 36-58).  One `ai.models.generateContent` call per variant name is
abstracted as `outcome`; a response's `.text` may be absent (`none`) or
empty. -/

/-- How a fallback run fails: a propagated call error, the generation
path's `Empty response from Gemini API` error, or the fall-through of an
empty variant list (unreachable for the concrete `modelNames`, where the JS
code would continue with `text` undefined). -/
inductive ModelErr (ε : Type) where
  | call (e : ε)
  | emptyResponse
  | noVariants
deriving DecidableEq

/-- The ordered model-variant list, identical in both services. -/
def modelNames : List String :=
  ["gemini-2.5-flash", "gemini-1.5-flash", "gemini-1.5-pro", "gemini-pro"]

/-- Embedding of the generation fallback loop (`generateTailoredResume`):
a variant is accepted only when the call returns and its text is truthy
(present and non-empty); an `if (!text) throw` inside the `try` turns an
empty response into a failure of that attempt; the last variant's failure
is rethrown. -/
def tryVariantsGen {ε : Type} (outcome : String → Except ε (Option String)) :
    List String → Except (ModelErr ε) String
  | [] => .error .noVariants
  | [v] =>
    match outcome v with
    | .ok (some s) => if s ≠ "" then .ok s else .error .emptyResponse
    | .ok none => .error .emptyResponse
    | .error e => .error (.call e)
  | v :: w :: rest =>
    match outcome v with
    | .ok (some s) => if s ≠ "" then .ok s else tryVariantsGen outcome (w :: rest)
    | .ok none => tryVariantsGen outcome (w :: rest)
    | .error _ => tryVariantsGen outcome (w :: rest)

/-- Embedding of the verification fallback loop (`verifyBullets` in
`src/unnamed/part_004`): the loop body stores `response.text` and breaks
with no emptiness check, so any non-raising call is accepted. -/
def tryVariantsVer {ε : Type} (outcome : String → Except ε (Option String)) :
    List String → Except (ModelErr ε) (Option String)
  | [] => .error .noVariants
  | [v] =>
    match outcome v with
    | .ok t => .ok t
    | .error e => .error (.call e)
  | v :: w :: rest =>
    match outcome v with
    | .ok t => .ok t
    | .error _ => tryVariantsVer outcome (w :: rest)

/-- The value a variant contributes on the generation path: its text when
the call returned and the text is truthy. -/
def genSuccess {ε : Type} (outcome : String → Except ε (Option String))
    (v : String) : Option String :=
  match outcome v with
  | .ok (some s) => if s ≠ "" then some s else none
  | _ => none

/-- The failure the generation path propagates for a variant: the raised
error, or the empty-response error when the call returned without text. -/
def genLastErr {ε : Type} (outcome : String → Except ε (Option String))
    (v : String) : ModelErr ε :=
  match outcome v with
  | .error e => .call e
  | .ok _ => .emptyResponse

/-- The failure the verification path propagates for a variant (only a
raised call error is possible there; the `.ok` branch is never reached when
this value is used). -/
def verLastErr {ε : Type} (outcome : String → Except ε (Option String))
    (v : String) : ModelErr ε :=
  match outcome v with
  | .error e => .call e
  | .ok _ => .noVariants

theorem tryVariantsGen_eq {ε : Type} (outcome : String → Except ε (Option String))
    (v : String) (rest : List String) (d : String) :
    tryVariantsGen outcome (v :: rest) =
      match (v :: rest).findSome? (genSuccess outcome) with
      | some s => .ok s
      | none => .error (genLastErr outcome ((v :: rest).getLastD d)) := by
  induction rest generalizing v d with
  | nil =>
    rw [List.findSome?_cons]
    cases h : outcome v with
    | ok t =>
      cases t with
      | some s =>
        by_cases hs : s = ""
        · subst hs
          simp [tryVariantsGen, genSuccess, genLastErr, h, List.findSome?]
        · simp [tryVariantsGen, genSuccess, genLastErr, h, hs, List.findSome?]
      | none => simp [tryVariantsGen, genSuccess, genLastErr, h, List.findSome?]
    | error e => simp [tryVariantsGen, genSuccess, genLastErr, h, List.findSome?]
  | cons w rest ih =>
    rw [List.findSome?_cons, List.getLastD_cons]
    cases h : outcome v with
    | ok t =>
      cases t with
      | some s =>
        by_cases hs : s = ""
        · subst hs
          simp [tryVariantsGen, genSuccess, h, ih w v]
        · simp [tryVariantsGen, genSuccess, h, hs]
      | none => simp [tryVariantsGen, genSuccess, h, ih w v]
    | error e => simp [tryVariantsGen, genSuccess, h, ih w v]

theorem tryVariantsVer_eq {ε : Type} (outcome : String → Except ε (Option String))
    (v : String) (rest : List String) (d : String) :
    tryVariantsVer outcome (v :: rest) =
      match (v :: rest).findSome? (fun u => (outcome u).toOption) with
      | some t => .ok t
      | none => .error (verLastErr outcome ((v :: rest).getLastD d)) := by
  induction rest generalizing v d with
  | nil =>
    rw [List.findSome?_cons]
    cases h : outcome v with
    | ok t => simp [tryVariantsVer, Except.toOption, verLastErr, h, List.findSome?]
    | error e => simp [tryVariantsVer, Except.toOption, verLastErr, h, List.findSome?]
  | cons w rest ih =>
    rw [List.findSome?_cons, List.getLastD_cons]
    cases h : outcome v with
    | ok t => simp [tryVariantsVer, Except.toOption, h]
    | error e => simp [tryVariantsVer, Except.toOption, h, ih w v]

/-- Claim C6 as amended: on the generation path the ordered variant list is
scanned in order, a variant failing when its call raises or returns no
(or empty) text, the first success wins and the last variant's failure is
propagated; on the verification path the first non-raising response wins
even when it carries no text — only a raised error fails an attempt
there. -/
theorem modelFallback_spec :
    ∀ (ε : Type) (outcome : String → Except ε (Option String)),
      (tryVariantsGen outcome modelNames =
        match modelNames.findSome? (genSuccess outcome) with
        | some s => .ok s
        | none => .error (genLastErr outcome "gemini-pro"))
      ∧ (tryVariantsVer outcome modelNames =
        match modelNames.findSome? (fun u => (outcome u).toOption) with
        | some t => .ok t
        | none => .error (verLastErr outcome "gemini-pro")) := by
  intro ε outcome
  exact ⟨tryVariantsGen_eq outcome "gemini-2.5-flash"
      ["gemini-1.5-flash", "gemini-1.5-pro", "gemini-pro"] "",
    tryVariantsVer_eq outcome "gemini-2.5-flash"
      ["gemini-1.5-flash", "gemini-1.5-pro", "gemini-pro"] ""⟩

/-- The first variant answers with empty text, later variants with "x". -/
def cexOutcome : String → Except Unit (Option String) :=
  fun v => if v = "gemini-2.5-flash" then .ok (some "") else .ok (some "x")

/-- Counterexample to claim C6: on the verification call a variant that
returns no text is accepted (the empty response of the first variant is
used), while the generation call skips it and uses the next variant — so
"a variant attempt fails if the call raises or returns no text" does not
hold for the verification call. -/
theorem modelFallback_counterexample :
    tryVariantsVer cexOutcome modelNames = .ok (some "")
    ∧ tryVariantsGen cexOutcome modelNames = .ok "x" :=
  ⟨rfl, rfl⟩

/-! ## URL normalization (C8) -/

/-- One entry of `claimMap` (`claimMapEntrySchema`); the JS field `section`
(one of the four enum strings) is named `sectionTag`. -/
structure ClaimMapEntry where
  bulletText : String
  evidenceSnippet : String
  sectionTag : String
  index : Option Nat
deriving DecidableEq, Repr

/-- Schema `generatorOutputSchema`: the validated generation payload. -/
structure GeneratorOutput where
  tailoredResumeJson : TailoredResume
  coverLetterText : Option String
  claimMap : List ClaimMapEntry
  suggestedAdditions : Option (List SuggestedAddition)
deriving DecidableEq, Repr

/-- JS `s.startsWith(pre)`. -/
def strStartsWith (s pre : String) : Bool :=
  pre.data.isPrefixOf s.data

/-- The per-field step of `normalizeUrls`: prefix `https://` when the value
is truthy (present, non-empty) and does not start with `http`. -/
def normLink (v : Option String) : Option String :=
  match v with
  | some s =>
    if s ≠ "" ∧ ¬ strStartsWith s "http" then some ("https://" ++ s) else some s
  | none => none

/-- Embedding of `normalizeUrls(output)`
(`src/server/services/geminiService.js` lines 165-190) as a pure update:
the four `basics.links` fields and every project `url` go through
`normLink`; everything else is untouched. -/
def normalizeUrls (o : GeneratorOutput) : GeneratorOutput :=
  { o with tailoredResumeJson :=
    { o.tailoredResumeJson with
      basics := { o.tailoredResumeJson.basics with
        links := o.tailoredResumeJson.basics.links.map (fun l =>
          { linkedIn := normLink l.linkedIn, github := normLink l.github,
            portfolio := normLink l.portfolio, website := normLink l.website }) },
      projects := o.tailoredResumeJson.projects.map (fun ps =>
        ps.map (fun p => { p with url := normLink p.url })) } }

/-- Whether a string carries a URI scheme (`letter (letter|digit|+|-|.)* :`).
Written from the spec's phrase "has no scheme", for comparison with the
code's `startsWith('http')` test. -/
def isSchemeTailChar (c : Char) : Bool :=
  c.isAlpha || c.isDigit || c = '+' || c = '-' || c = '.'

/-- Spec-side scheme detector (see `isSchemeTailChar`). -/
def specHasScheme (s : String) : Bool :=
  match s.data with
  | [] => false
  | c :: rest => c.isAlpha && ((rest.dropWhile isSchemeTailChar).headD ' ' = ':')

/-- The validate-then-normalize tail of `generateTailoredResume`
(lines 117-124): normalization is applied to the validator's result, after
validation. -/
def validateAndNormalize {J : Type} (validate : J → Option GeneratorOutput)
    (j : J) : Option GeneratorOutput :=
  (validate j).map normalizeUrls

/-- A validated output whose `linkedIn` is an `ftp://` URL. -/
def cexGenOutput : GeneratorOutput :=
  { tailoredResumeJson :=
    { basics := { name := "N", email := "n@example.com", phone := none,
                  location := none,
                  links := some { linkedIn := some "ftp://files.example.com",
                                  github := none, portfolio := none,
                                  website := none } },
      summary := "S", skills := [], experience := [], projects := none,
      education := none,
      tailoringNotes := { keywordsTargeted := [], jobRequirementsMatched := none,
                          jobRequirementsNotMatched := none } },
    coverLetterText := none, claimMap := [], suggestedAdditions := none }

/-- Counterexample to claim C8: `ftp://files.example.com` carries a scheme,
yet `normalizeUrls` prefixes it (the code tests `startsWith('http')`, not
scheme presence), producing `https://ftp://files.example.com`. -/
theorem normalizeUrls_counterexample :
    specHasScheme "ftp://files.example.com" = true
    ∧ normLink (some "ftp://files.example.com") =
        some "https://ftp://files.example.com"
    ∧ (normalizeUrls cexGenOutput).tailoredResumeJson.basics.links =
        some { linkedIn := some "https://ftp://files.example.com",
               github := none, portfolio := none, website := none } := by
  refine ⟨by decide, by decide, by decide⟩

/-- Claim C8 as amended: after validation the four link fields and every
project url are normalized by prefixing `https://` exactly when the value
does not start with the literal `http` (so a non-http scheme such as
`ftp://` is prefixed too, and any value starting with `http` is left
unchanged); all other fields are untouched, and since normalization runs on
the validator's output it never changes whether validation succeeds. -/
theorem normalizeUrls_spec :
    (∀ o : GeneratorOutput,
      (normalizeUrls o).tailoredResumeJson.basics.links =
        o.tailoredResumeJson.basics.links.map (fun l =>
          { linkedIn := normLink l.linkedIn, github := normLink l.github,
            portfolio := normLink l.portfolio, website := normLink l.website })
      ∧ (normalizeUrls o).tailoredResumeJson.projects =
          o.tailoredResumeJson.projects.map (fun ps =>
            ps.map (fun p => { p with url := normLink p.url }))
      ∧ (normalizeUrls o).coverLetterText = o.coverLetterText
      ∧ (normalizeUrls o).claimMap = o.claimMap
      ∧ (normalizeUrls o).suggestedAdditions = o.suggestedAdditions
      ∧ (normalizeUrls o).tailoredResumeJson.summary = o.tailoredResumeJson.summary
      ∧ (normalizeUrls o).tailoredResumeJson.experience =
          o.tailoredResumeJson.experience)
    ∧ (∀ s : String, normLink (some s) = some s ↔ (s = "" ∨ strStartsWith s "http"))
    ∧ (∀ (J : Type) (validate : J → Option GeneratorOutput) (j : J),
        (validateAndNormalize validate j).isSome = (validate j).isSome) := by
  refine ⟨fun o => ⟨rfl, rfl, rfl, rfl, rfl, rfl, rfl⟩, fun s => ?_,
    fun J validate j => ?_⟩
  · constructor
    · intro h
      by_cases hc : s = "" ∨ strStartsWith s "http"
      · exact hc
      · exfalso
        push_neg at hc
        have hn : normLink (some s) = some ("https://" ++ s) := by
          simp [normLink, hc.1, hc.2]
        rw [hn] at h
        have hlen := congrArg String.length (Option.some.inj h)
        rw [String.length_append] at hlen
        have h8 : ("https://" : String).length = 8 := rfl
        omega
    · intro h
      rcases h with h | h
      · simp [normLink, h]
      · simp [normLink, h]
  · unfold validateAndNormalize
    cases validate j <;> simp

/-! ## JSON values and the recovery strategy (C5)

`Json` models the values `JSON.parse` produces, plus `undefined` for the JS
`undefined` assigned by the pre-validation passes.  Numbers keep their
lexeme: the embedded code never consumes a numeric value, only JS
truthiness, which is decidable from the lexeme (a JSON number is zero
exactly when its lexeme has no digit 1-9). -/

inductive Json where
  | null
  | undefined
  | bool (b : Bool)
  | num (lexeme : String)
  | str (s : String)
  | arr (items : List Json)
  | obj (fields : List (String × Json))

/-- JS truthiness of a JSON value. -/
def Json.truthy : Json → Bool
  | .null => false
  | .undefined => false
  | .bool b => b
  | .num lex => lex.data.any (fun c => 49 ≤ c.toNat && c.toNat ≤ 57)
  | .str s => s ≠ ""
  | .arr _ => true
  | .obj _ => true

/-- Truthiness of the JS variable `parsedOutput` (`undefined` when no step
assigned it). -/
def truthyOpt : Option Json → Bool
  | some v => v.truthy
  | none => false

/-- The characters the regex class `\s` (and `trim`) matches. -/
def isWsChar (c : Char) : Bool :=
  c = ' ' || c = '\t' || c = '\n' || c = '\r' || c.toNat = 11 || c.toNat = 12
    || c.toNat = 160 || c.toNat = 0xfeff || c.toNat = 0x2028 || c.toNat = 0x2029

/-- JS `String.prototype.trim`. -/
def jsTrim (s : String) : String :=
  ⟨((s.data.dropWhile isWsChar).reverse.dropWhile isWsChar).reverse⟩

/-- JS `text.substring(0, n)`. -/
def jsSubstringTo (s : String) (n : Nat) : String := ⟨s.data.take n⟩

/-- The three-backtick fence. -/
def fence : List Char := "```".data

/-- Length of the leading whitespace run. -/
def wsRunLen (l : List Char) : Nat := (l.takeWhile isWsChar).length

/-- Drop the maximal trailing whitespace run. -/
def dropTrailingWs (l : List Char) : List Char :=
  (l.reverse.dropWhile isWsChar).reverse

/-- First position `t ≥ start` where the fence occurs in `cs`. -/
def findFenceFrom (cs : List Char) (start : Nat) : Option Nat :=
  (List.range (cs.length + 1)).findSome? (fun t =>
    if start ≤ t && fence.isPrefixOf (cs.drop t) then some t else none)

/-- One attempt of the regex ```` /```(?:json)?\s*([\s\S]*?)\s*```/ ````
at position `i`: the fence must occur at `i`; `json` is consumed greedily
when present, then the greedy `\s*`; the lazy group then reaches to the
first closing fence, minus the whitespace run the trailing `\s*` takes. -/
def matchCodeBlockAt (cs : List Char) (i : Nat) : Option (List Char) :=
  if fence.isPrefixOf (cs.drop i) then
    let j := i + 3
    let j' := if ("json".data).isPrefixOf (cs.drop j) then j + 4 else j
    let q0 := j' + wsRunLen (cs.drop j')
    match findFenceFrom cs q0 with
    | some t => some (dropTrailingWs ((cs.drop q0).take (t - q0)))
    | none => none
  else none

/-- The capture group of the first match of the code-fence regex (`none`
when the regex does not match anywhere). -/
def matchCodeBlock (s : String) : Option String :=
  ((List.range (s.data.length + 1)).findSome?
    (fun i => matchCodeBlockAt s.data i)).map (fun l => ⟨l⟩)

/-- Index of the last character satisfying `p`. -/
def findLastIdx (cs : List Char) (p : Char → Bool) : Option Nat :=
  (cs.reverse.findIdx? p).map (fun k => cs.length - 1 - k)

/-- The whole match of the regex `/\{[\s\S]*\}/`: from the first opening
brace, greedily to the last closing brace of the text (no match when no
closing brace follows an opening one). -/
def braceSpan (s : String) : Option String :=
  let cs := s.data
  match cs.findIdx? (fun c => c = Char.ofNat 123),
      findLastIdx cs (fun c => c = Char.ofNat 125) with
  | some i, some j => if i < j then some ⟨(cs.drop i).take (j + 1 - i)⟩ else none
  | _, _ => none

/-- Embedding of the three-step JSON recovery shared by
`generateTailoredResume` (`src/server/services/geminiService.js` lines
68-98) and `verifyBullets` (`src/server/services/verifierService.js` lines
40-69): fenced code block, then brace span, then the whole trimmed text;
each step's parse runs only while `parsedOutput` is still JS-falsy, and a
successful parse overwrites it.  When the final parse throws, the logged
diagnostic carries `text.substring(0, 500)` (the error value here).
`jsonParse` abstracts the `JSON.parse` builtin (`none` = throws). -/
def recoverJson (jsonParse : String → Option Json) (text : String) :
    Except String Json :=
  let parsed1 : Option Json :=
    match matchCodeBlock text with
    | some captured => jsonParse (jsTrim captured)
    | none => none
  let parsed2 : Option Json :=
    if truthyOpt parsed1 then parsed1
    else
      match braceSpan text with
      | some span =>
        match jsonParse span with
        | some j => some j
        | none => parsed1
      | none => parsed1
  if truthyOpt parsed2 then .ok (parsed2.getD .null)
  else
    match jsonParse (jsTrim text) with
    | some j => .ok j
    | none => .error (jsSubstringTo text 500)

/-- Claim C5 as amended: the three extraction steps are attempted in the
stated order, but a step wins only when its parse yields a JS-truthy value;
a step that parses to a falsy JSON value (null, false, 0, "") does not stop
the chain — the whole-text parse still runs and its outcome decides; and on
failure the diagnostic is `text.substring(0, 500)`, a prefix of at most 500
characters, never the full text. -/
theorem recoverJson_spec :
    ∀ (jsonParse : String → Option Json) (text : String),
      (recoverJson jsonParse text =
        (let r1 := (matchCodeBlock text).bind (fun c => jsonParse (jsTrim c))
         let r2 := (braceSpan text).bind jsonParse
         if truthyOpt r1 then .ok (r1.getD .null)
         else if truthyOpt r2 then .ok (r2.getD .null)
         else
           match jsonParse (jsTrim text) with
           | some j => .ok j
           | none => .error (jsSubstringTo text 500)))
      ∧ (jsSubstringTo text 500).length ≤ 500
      ∧ (jsSubstringTo text 500).data ++ text.data.drop 500 = text.data := by
  intro p text
  refine ⟨?_, ?_, List.take_append_drop 500 text.data⟩
  · unfold recoverJson
    dsimp only
    cases hcb : matchCodeBlock text with
    | none =>
      cases hbs : braceSpan text with
      | none => simp [*, truthyOpt]
      | some span =>
        cases hp : p span with
        | none => simp [*, truthyOpt]
        | some j => cases hj : j.truthy <;> simp [*, truthyOpt]
    | some c =>
      cases hp1 : p (jsTrim c) with
      | none =>
        cases hbs : braceSpan text with
        | none => simp [*, truthyOpt]
        | some span =>
          cases hp : p span with
          | none => simp [*, truthyOpt]
          | some j => cases hj : j.truthy <;> simp [*, truthyOpt]
      | some j1 =>
        cases hj1 : j1.truthy with
        | true => simp [*, truthyOpt]
        | false =>
          cases hbs : braceSpan text with
          | none => simp [*, truthyOpt]
          | some span =>
            cases hp : p span with
            | none => simp [*, truthyOpt]
            | some j => cases hj : j.truthy <;> simp [*, truthyOpt]
  · show (text.data.take 500).length ≤ 500
    rw [List.length_take]
    omega

/-! ## A concrete `JSON.parse` (used to ground the C5/C7 counterexamples) -/

/-- JSON grammar whitespace. -/
def isJsonWs (c : Char) : Bool :=
  c = ' ' || c = '\t' || c = '\n' || c = '\r'

def isJsonDigit (c : Char) : Bool := 48 ≤ c.toNat && c.toNat ≤ 57

/-- Hex digit value. -/
def hexVal (c : Char) : Option Nat :=
  if 48 ≤ c.toNat && c.toNat ≤ 57 then some (c.toNat - 48)
  else if 97 ≤ c.toNat && c.toNat ≤ 102 then some (c.toNat - 87)
  else if 65 ≤ c.toNat && c.toNat ≤ 70 then some (c.toNat - 55)
  else none

/-- Simple escape characters of JSON string literals. -/
def escChar (e : Char) : Option Char :=
  if e = '"' then some '"'
  else if e = '\\' then some '\\'
  else if e = '/' then some '/'
  else if e = 'b' then some (Char.ofNat 8)
  else if e = 'f' then some (Char.ofNat 12)
  else if e = 'n' then some '\n'
  else if e = 'r' then some '\r'
  else if e = 't' then some '\t'
  else none

/-- Body of a JSON string literal after the opening quote: the decoded
characters and the rest after the closing quote. -/
def parseStringBody : List Char → Option (List Char × List Char)
  | [] => none
  | '"' :: rest => some ([], rest)
  | '\\' :: e :: rest =>
    if e = 'u' then
      match rest with
      | h1 :: h2 :: h3 :: h4 :: rest3 =>
        match hexVal h1, hexVal h2, hexVal h3, hexVal h4 with
        | some a, some b, some c, some d =>
          (parseStringBody rest3).map (fun q =>
            (Char.ofNat (((a * 16 + b) * 16 + c) * 16 + d) :: q.1, q.2))
        | _, _, _, _ => none
      | _ => none
    else
      match escChar e with
      | some ch => (parseStringBody rest).map (fun q => (ch :: q.1, q.2))
      | none => none
  | c :: rest =>
    if c.toNat < 32 then none
    else (parseStringBody rest).map (fun q => (c :: q.1, q.2))

/-- Lexeme of a JSON number at the head of `cs` (sign, integer part,
optional fraction and exponent), with the rest. -/
def parseNumberLex (cs : List Char) : Option (List Char × List Char) :=
  let signLen : Nat := match cs with | '-' :: _ => 1 | _ => 0
  let cs1 := cs.drop signLen
  match cs1 with
  | [] => none
  | c :: _ =>
    if ¬ isJsonDigit c then none
    else
      let intPart := if c = '0' then ['0'] else cs1.takeWhile isJsonDigit
      let cs2 := cs1.drop intPart.length
      let fracPart : List Char :=
        match cs2 with
        | '.' :: rest =>
          let ds := rest.takeWhile isJsonDigit
          if ds.isEmpty then [] else '.' :: ds
        | _ => []
      let cs3 := cs2.drop fracPart.length
      let expPart : List Char :=
        match cs3 with
        | e :: rest =>
          if e = 'e' ∨ e = 'E' then
            let sgn : List Char := match rest with
              | '+' :: _ => ['+']
              | '-' :: _ => ['-']
              | _ => []
            let ds := (rest.drop sgn.length).takeWhile isJsonDigit
            if ds.isEmpty then [] else e :: (sgn ++ ds)
          else []
        | [] => []
      let cs4 := cs3.drop expPart.length
      some (cs.take signLen ++ intPart ++ fracPart ++ expPart, cs4)

mutual

/-- Fuel-bounded JSON value parser: skips leading whitespace, returns the
value and the rest. -/
def parseVal : Nat → List Char → Option (Json × List Char)
  | 0, _ => none
  | fuel + 1, cs0 =>
    let cs := cs0.dropWhile isJsonWs
    match cs with
    | [] => none
    | c :: rest =>
      if c = Char.ofNat 123 then
        let rest' := rest.dropWhile isJsonWs
        match rest' with
        | d :: rest2 =>
          if d = Char.ofNat 125 then some (.obj [], rest2)
          else
            match parseMembers fuel rest' with
            | some (fields, rest3) => some (.obj fields, rest3)
            | none => none
        | [] => none
      else if c = '[' then
        let rest' := rest.dropWhile isJsonWs
        match rest' with
        | d :: rest2 =>
          if d = ']' then some (.arr [], rest2)
          else
            match parseItems fuel rest' with
            | some (items, rest3) => some (.arr items, rest3)
            | none => none
        | [] => none
      else if c = '"' then
        match parseStringBody rest with
        | some (chars, rest2) => some (.str ⟨chars⟩, rest2)
        | none => none
      else if c = 't' then
        if ("rue".data).isPrefixOf rest then some (.bool true, rest.drop 3) else none
      else if c = 'f' then
        if ("alse".data).isPrefixOf rest then some (.bool false, rest.drop 4) else none
      else if c = 'n' then
        if ("ull".data).isPrefixOf rest then some (.null, rest.drop 3) else none
      else
        match parseNumberLex cs with
        | some (lex, rest2) => some (.num ⟨lex⟩, rest2)
        | none => none

/-- Fuel-bounded parser for a non-empty member list (after an opening
brace), consuming the closing brace. -/
def parseMembers : Nat → List Char → Option (List (String × Json) × List Char)
  | 0, _ => none
  | fuel + 1, cs0 =>
    let cs := cs0.dropWhile isJsonWs
    match cs with
    | c :: rest =>
      if c = '"' then
        match parseStringBody rest with
        | some (key, rest2) =>
          let rest3 := rest2.dropWhile isJsonWs
          match rest3 with
          | ':' :: rest4 =>
            match parseVal fuel rest4 with
            | some (v, rest5) =>
              let rest6 := rest5.dropWhile isJsonWs
              match rest6 with
              | ',' :: rest7 =>
                match parseMembers fuel rest7 with
                | some (fields, rest8) => some ((⟨key⟩, v) :: fields, rest8)
                | none => none
              | d :: rest7 =>
                if d = Char.ofNat 125 then some ([(⟨key⟩, v)], rest7) else none
              | [] => none
            | none => none
          | _ => none
        | none => none
      else none
    | [] => none

/-- Fuel-bounded parser for a non-empty item list (after an opening
bracket), consuming the closing bracket. -/
def parseItems : Nat → List Char → Option (List Json × List Char)
  | 0, _ => none
  | fuel + 1, cs =>
    match parseVal fuel cs with
    | some (v, rest) =>
      let rest2 := rest.dropWhile isJsonWs
      match rest2 with
      | ',' :: rest3 =>
        match parseItems fuel rest3 with
        | some (items, rest4) => some (v :: items, rest4)
        | none => none
      | ']' :: rest3 => some ([v], rest3)
      | _ => none
    | none => none

end

/-- The `JSON.parse` builtin, concretely: one JSON value with only
whitespace around it; `none` models a thrown `SyntaxError`. -/
def jsonParseFn (s : String) : Option Json :=
  match parseVal (2 * s.data.length + 2) s.data with
  | some (j, rest) => if (rest.dropWhile isJsonWs).isEmpty then some j else none
  | none => none

/-- The raw model text for the C5 counterexample: a fenced block containing
the JSON value `0`, followed by a brace span. -/
def cexRecoverText : String := "```0``` \x7b\x7d"

/-- Counterexample to claim C5: the first recovery step parses successfully
(the fenced block holds the JSON value `0`), yet the result is the second
step's object, because a falsy parse does not stop the chain — refuting
"stopping at the first attempt that parses; later steps are not attempted
once one parses". -/
theorem recoverJson_counterexample :
    (matchCodeBlock cexRecoverText).map jsTrim = some "0"
    ∧ jsonParseFn "0" = some (Json.num "0")
    ∧ recoverJson jsonParseFn cexRecoverText = .ok (Json.obj [])
    ∧ recoverJson jsonParseFn cexRecoverText ≠ .ok (Json.num "0") := by
  refine ⟨rfl, rfl, rfl, ?_⟩
  intro h
  rw [show recoverJson jsonParseFn cexRecoverText = .ok (Json.obj []) from rfl] at h
  exact Json.noConfusion (Except.ok.inj h)

/-! ## Null-to-absent normalization and validation (C7) -/

/-- The assignment `x === null ? undefined : x`. -/
def nullToUndefined : Json → Json
  | .null => .undefined
  | v => v

/-- Embedding of the generation pre-validation pass
(`src/server/services/geminiService.js` lines 111-114): only an explicit
null at the top-level `coverLetterText` is turned into `undefined`; every
other field is untouched. -/
def preprocessGenerator (j : Json) : Json :=
  match j with
  | .obj fields =>
    .obj (fields.map (fun kv =>
      (kv.1, if kv.1 = "coverLetterText" then nullToUndefined kv.2 else kv.2)))
  | _ => j

/-- The per-verification step of the verifier pre-validation pass
(`src/unnamed/part_004` lines 108-113): an explicit null `suggestedFix`
becomes `undefined`. -/
def fixSuggested (item : Json) : Json :=
  match item with
  | .obj fs =>
    .obj (fs.map (fun kv =>
      (kv.1, if kv.1 = "suggestedFix" then nullToUndefined kv.2 else kv.2)))
  | _ => item

/-- The value transform the verifier pass applies to the `verifications`
field (only an array is mapped; `Array.isArray` guards it in JS). -/
def arrMapFix : Json → Json
  | .arr items => .arr (items.map fixSuggested)
  | v => v

/-- Embedding of the verifier pre-validation pass (`src/unnamed/part_004`
lines 106-114). -/
def preprocessVerifier (j : Json) : Json :=
  match j with
  | .obj fields =>
    .obj (fields.map (fun kv =>
      (kv.1, if kv.1 = "verifications" then arrMapFix kv.2 else kv.2)))
  | _ => j

/-- Property lookup on a parsed value (`JSON.parse` keeps the last
duplicate key, so lookup takes the last match); `undefined` when absent or the
value is not an object. -/
def jsonGet (j : Json) (key : String) : Json :=
  match j with
  | .obj fields =>
    match fields.reverse.find? (fun kv => kv.1 = key) with
    | some kv => kv.2
    | none => .undefined
  | _ => .undefined

/-- Acceptance of `z.string()`. -/
def zodStr : Json → Bool
  | .str _ => true
  | _ => false

/-- Acceptance of `z.string().optional()`: absent/undefined or a string —
an explicit null is rejected. -/
def zodOptStr : Json → Bool
  | .undefined => true
  | .str _ => true
  | _ => false

/-- Acceptance of `z.string().url().optional()`, `urlOk` abstracting the
library's format check. -/
def zodOptUrl (urlOk : String → Bool) : Json → Bool
  | .undefined => true
  | .str s => urlOk s
  | _ => false

/-- Embedding of `basicsSchema` (`src/server/schemas.js` lines 4-15) as an
acceptance test; the library's `email()` and `url()` format checks are
abstracted as parameters (the refutation below holds even when both accept
everything). -/
def validateBasics (emailOk urlOk : String → Bool) (j : Json) : Bool :=
  match j with
  | .obj _ =>
    (match jsonGet j "name" with
     | .str s => 1 ≤ s.length
     | _ => false)
    && (match jsonGet j "email" with
        | .str s => emailOk s
        | _ => false)
    && zodOptStr (jsonGet j "phone")
    && zodOptStr (jsonGet j "location")
    && (match jsonGet j "links" with
        | .undefined => true
        | .obj _ =>
          zodOptUrl urlOk (jsonGet (jsonGet j "links") "linkedIn")
          && zodOptUrl urlOk (jsonGet (jsonGet j "links") "github")
          && zodOptUrl urlOk (jsonGet (jsonGet j "links") "portfolio")
          && zodOptUrl urlOk (jsonGet (jsonGet j "links") "website")
        | _ => false)
  | _ => false

/-- Embedding of `bulletVerificationSchema` (`src/server/schemas.js` lines
93-100). -/
def validateVerification (j : Json) : Bool :=
  match j with
  | .obj _ =>
    zodStr (jsonGet j "bulletText")
    && (match jsonGet j "status" with
        | .str s => s = "SUPPORTED" || s = "STRETCH" || s = "UNSUPPORTED"
        | _ => false)
    && zodStr (jsonGet j "reason")
    && zodStr (jsonGet j "evidence")
    && zodOptStr (jsonGet j "suggestedFix")
    && zodOptStr (jsonGet j "bulletId")
  | _ => false

/-- Embedding of `verifierOutputSchema` (`src/server/schemas.js` lines
103-105). -/
def validateVerifierOutput (j : Json) : Bool :=
  match j with
  | .obj _ =>
    match jsonGet j "verifications" with
    | .arr items => items.all validateVerification
    | _ => false
  | _ => false

theorem jsonGet_mapField (hname : String) (tr : Json → Json)
    (htr : tr .undefined = .undefined) (fields : List (String × Json)) (k : String) :
    jsonGet (.obj (fields.map (fun kv =>
        (kv.1, if kv.1 = hname then tr kv.2 else kv.2)))) k =
      if k = hname then tr (jsonGet (.obj fields) k)
      else jsonGet (.obj fields) k := by
  unfold jsonGet
  dsimp only
  rw [← List.map_reverse]
  generalize fields.reverse = l
  induction l with
  | nil =>
    by_cases hk : k = hname <;> simp [hk, htr]
  | cons kv rest ih =>
    simp only [List.map_cons, List.find?_cons]
    by_cases hk : kv.1 = k
    · simp [hk]
    · simp only [decide_eq_false hk]
      exact ih

/-- A basics object with an explicit null `phone`, otherwise schema-valid. -/
def cexBasics : Json :=
  .obj [("name", .str "A"), ("email", .str "a@b.c"), ("phone", .null)]

/-- A recovered generation payload carrying `cexBasics`. -/
def cexGenPayload : Json :=
  .obj [("tailoredResumeJson", .obj [("basics", cexBasics)])]

/-- Counterexample to claim C7: the generation pre-validation pass leaves a
null `basics.phone` in place (only `coverLetterText` is normalized), and
`basicsSchema` then rejects the payload — even with email/url format checks
that accept everything — contradicting "every explicit null value on an
optional string field is converted to absent, so that such a payload
validates successfully". -/
theorem nullNormalization_counterexample :
    preprocessGenerator cexGenPayload = cexGenPayload
    ∧ jsonGet (jsonGet (jsonGet (preprocessGenerator cexGenPayload)
        "tailoredResumeJson") "basics") "phone" = Json.null
    ∧ validateBasics (fun _ => true) (fun _ => true) cexBasics = false :=
  ⟨rfl, rfl, rfl⟩

/-- A verifier payload whose only flaw is a null `suggestedFix`. -/
def cexVerifPayload : Json :=
  .obj [("verifications", .arr [.obj
    [("bulletText", .str "b"), ("status", .str "SUPPORTED"),
     ("reason", .str "r"), ("evidence", .str "none"),
     ("suggestedFix", .null)]])]

/-- Claim C7 as amended: before validation only two specific nulls are
converted to absent — the generation payload's top-level `coverLetterText`
and each verification's `suggestedFix` — so a null `suggestedFix` validates
after the pass (and would not before), while a null on any other optional
string field (for example `basics.phone`) is left in place and rejected by
validation regardless of the abstracted format checks. -/
theorem nullNormalization_spec :
    (∀ (fields : List (String × Json)) (k : String),
      jsonGet (preprocessGenerator (.obj fields)) k =
        if k = "coverLetterText" then nullToUndefined (jsonGet (.obj fields) k)
        else jsonGet (.obj fields) k)
    ∧ (∀ (fields : List (String × Json)) (k : String),
      jsonGet (preprocessVerifier (.obj fields)) k =
        if k = "verifications" then arrMapFix (jsonGet (.obj fields) k)
        else jsonGet (.obj fields) k)
    ∧ (∀ (fs : List (String × Json)) (k : String),
      jsonGet (fixSuggested (.obj fs)) k =
        if k = "suggestedFix" then nullToUndefined (jsonGet (.obj fs) k)
        else jsonGet (.obj fs) k)
    ∧ validateVerifierOutput cexVerifPayload = false
    ∧ validateVerifierOutput (preprocessVerifier cexVerifPayload) = true
    ∧ (∀ emailOk urlOk : String → Bool,
        validateBasics emailOk urlOk cexBasics = false
        ∧ validateBasics emailOk urlOk (preprocessGenerator cexBasics) = false) := by
  refine ⟨?_, ?_, ?_, rfl, rfl, fun emailOk urlOk => ⟨?_, ?_⟩⟩
  · intro fields k
    unfold preprocessGenerator
    dsimp only
    exact jsonGet_mapField "coverLetterText" nullToUndefined rfl fields k
  · intro fields k
    unfold preprocessVerifier
    dsimp only
    exact jsonGet_mapField "verifications" arrMapFix rfl fields k
  · intro fs k
    unfold fixSuggested
    dsimp only
    exact jsonGet_mapField "suggestedFix" nullToUndefined rfl fs k
  · show validateBasics emailOk urlOk cexBasics = false
    unfold validateBasics cexBasics
    simp [jsonGet, zodOptStr]
  · show validateBasics emailOk urlOk (preprocessGenerator cexBasics) = false
    unfold validateBasics preprocessGenerator cexBasics
    simp [jsonGet, zodOptStr, nullToUndefined]

end CRX
